import Mathlib

/-!
# timed_tx.cpp: timed transmission test strategies

A shallow embedding of `src/timed_tx.cpp`.

The program is a script around a radio driver.  The driver, the stop flag set
by the signal handler, the sensors and the waveform file are the environment;
what the program does is recorded as the list of driver calls it makes (the
device-command trace).

Conventions of the embedding:

* times (`uhd::time_spec_t`, `double` seconds) are exact rationals; the whole
  seconds of a time are its floor;
* `stop_signal_called` is read through a schedule `stop : Nat → Bool`, the
  value seen by the n-th read (counted from 0);
* a `while` loop takes a `fuel` bound on its number of loop-head tests; when
  the fuel ends inside the loop the run is reported as not finished, with the
  trace produced so far;
* `size_t` is 64 bits wide;
* of the driver calls only the query of the sensor "gps_locked" can raise (it
  is the one inside the `try` block); the creation of the device, the sleeps
  and the printed text other than the expected time of `xmit_fast_timing` are
  left out.
-/

namespace TimedTx

/-! ## Data -/

/-- One byte of a file or of memory. -/
abbrev Byte := Fin 256

/-- The sample type `typedef std::complex<int8_t> samp_type;` (line 53):
real and imaginary part, each the value of a signed 8-bit integer. -/
structure samp_type where
  re : Int
  im : Int
deriving DecidableEq

/-- The fields of `uhd::tx_metadata_t` the program sets. -/
structure tx_metadata_t where
  start_of_burst : Bool
  end_of_burst : Bool
  has_time_spec : Bool
  time_spec : ℚ
deriving DecidableEq

/-- A default-constructed `uhd::tx_metadata_t md;`. -/
def tx_metadata_t.init : tx_metadata_t :=
  { start_of_burst := false, end_of_burst := false, has_time_spec := false, time_spec := 0 }

/-- The struct `test_data_t` (lines 55-61); the two driver handles are the
environment and carry no data. -/
structure test_data_t where
  frame_offset : ℚ
  buff_size : Nat
  buff : List samp_type

/-- A call made on the device handle or on the transmit stream.  A sensor query
is recorded with its answer (`none`: the query raised). -/
inductive Cmd where
  | get_mboard_sensor (name : String) (answer : Option Bool)
  | set_sync_source (clock_source time_source : String)
  | set_time_source (source : String)
  | set_clock_source (source : String)
  | set_time_unknown_pps (t : ℚ)
  | set_time_now (t : ℚ)
  | get_time_last_pps
  | set_tx_rate (rate : ℚ)
  | set_tx_freq (freq : ℚ)
  | set_tx_gain (gain : ℚ)
  | get_tx_sensor_names
  | get_tx_sensor (name : String)
  | get_tx_stream
  | send (buff : List samp_type) (nsamps : Nat) (md : tx_metadata_t) (timeout : ℚ)
deriving DecidableEq

/-- What a function has done when it returns or when the fuel ends. -/
structure Run where
  /-- driver calls made, in order -/
  trace : List Cmd
  /-- index of the next read of `stop_signal_called` -/
  reads : Nat
  /-- the function returned -/
  done : Bool

/-- The descriptors passed to `send`, in order. -/
def sent : List Cmd → List tx_metadata_t
  | [] => []
  | Cmd.send _ _ md _ :: rest => md :: sent rest
  | _ :: rest => sent rest

/-- Whether a call is a `send`. -/
def Cmd.is_send : Cmd → Bool
  | Cmd.send _ _ _ _ => true
  | _ => false

/-- Whole seconds of a time, `time_spec_t::get_full_secs()`. -/
def get_full_secs (t : ℚ) : Int := ⌊t⌋

/-! ## The four strategies -/

/-- The loop of `xmit_tx_metadata` (lines 78-82) and of `xmit_pps_edge`
(lines 106-111): `while (not stop_signal_called) { send(md); md.has_time_spec =
false; md.start_of_burst = false; }`. -/
def send_until_stop (td : test_data_t) (stop : Nat → Bool) :
    Nat → Nat → tx_metadata_t → Run
  | 0, r, _ => { trace := [], reads := r, done := false }
  | fuel + 1, r, md =>
    if stop r then { trace := [], reads := r + 1, done := true }
    else
      let rest := send_until_stop td stop fuel (r + 1)
        { md with has_time_spec := false, start_of_burst := false }
      { rest with trace := Cmd.send td.buff td.buff_size md 4 :: rest.trace }

/-- The function `xmit_tx_metadata` (lines 69-83); `last_pps` is the answer of
the device to `get_time_last_pps()`. -/
def xmit_tx_metadata (td : test_data_t) (last_pps : ℚ) (stop : Nat → Bool)
    (fuel : Nat) : Run :=
  let md : tx_metadata_t :=
    { tx_metadata_t.init with start_of_burst := true, end_of_burst := false,
                              has_time_spec := true }
  let start_offset : ℚ := 2
  let md := { md with time_spec := (get_full_secs last_pps : ℚ) + start_offset + td.frame_offset }
  let loop := send_until_stop td stop fuel 0 md
  { loop with trace := Cmd.get_time_last_pps :: loop.trace }

/-- The function `xmit_pps_edge` (lines 92-113). -/
def xmit_pps_edge (td : test_data_t) (stop : Nat → Bool) (fuel : Nat) : Run :=
  let md : tx_metadata_t :=
    { tx_metadata_t.init with start_of_burst := true, end_of_burst := false,
                              has_time_spec := true }
  let start_offset : ℚ := 2 + 17 / 1000000
  let md := { md with time_spec := start_offset + td.frame_offset }
  let loop := send_until_stop td stop fuel 0 md
  { loop with trace := Cmd.set_time_unknown_pps 0 :: loop.trace }

/-- The loop of `xmit_burst_timing` (lines 131-137); `md` is not changed in
the loop. -/
def burst_loop (td : test_data_t) (stop : Nat → Bool) (md : tx_metadata_t) :
    Nat → Nat → Run
  | 0, r => { trace := [], reads := r, done := false }
  | fuel + 1, r =>
    if stop r then { trace := [], reads := r + 1, done := true }
    else
      let rest := burst_loop td stop md fuel (r + 1)
      { rest with
        trace := Cmd.set_time_now 0 :: Cmd.send td.buff td.buff_size md 4 :: rest.trace }

/-- The function `xmit_burst_timing` (lines 121-138). -/
def xmit_burst_timing (td : test_data_t) (stop : Nat → Bool) (fuel : Nat) : Run :=
  let md : tx_metadata_t :=
    { tx_metadata_t.init with start_of_burst := true, end_of_burst := true,
                              has_time_spec := true }
  let md := { md with time_spec := 2 }
  burst_loop td stop md fuel 0

/-- State of the `for` loop of `xmit_fast_timing` when it is left. -/
structure FastLoop where
  trace : List Cmd
  /-- the loop counter `i` -/
  i : Nat
  reads : Nat
  done : Bool

/-- The loop of `xmit_fast_timing` (lines 162-171):
`for (i = 0; i < 50; ++i) { if (stop_signal_called) break; send(md); ... }`. -/
def fast_loop (td : test_data_t) (stop : Nat → Bool) :
    Nat → Nat → Nat → tx_metadata_t → FastLoop
  | 0, i, r, _ => { trace := [], i := i, reads := r, done := false }
  | fuel + 1, i, r, md =>
    if i < 50 then
      if stop r then { trace := [], i := i, reads := r + 1, done := true }
      else
        let rest := fast_loop td stop fuel (i + 1) (r + 1)
          { md with has_time_spec := false, start_of_burst := false }
        { rest with trace := Cmd.send td.buff td.buff_size md 4 :: rest.trace }
    else { trace := [], i := i, reads := r, done := true }

/-- What `xmit_fast_timing` has done: the run and the value printed after
"Expected time: ". -/
structure FastRun extends Run where
  expected_time : ℚ

/-- The function `xmit_fast_timing` (lines 149-175).  The loop makes at most 51
loop-head tests, so it is run with fuel 51. -/
def xmit_fast_timing (td : test_data_t) (stop : Nat → Bool) : FastRun :=
  let md : tx_metadata_t :=
    { tx_metadata_t.init with start_of_burst := true, end_of_burst := false,
                              has_time_spec := true }
  let start_offset : ℚ := 2 + 17 / 1000000
  let md := { md with time_spec := start_offset + td.frame_offset }
  let loop := fast_loop td stop 51 0 0 md
  { trace := Cmd.set_time_now 0 :: loop.trace
    reads := loop.reads
    done := loop.done
    expected_time := 2 + (5 / 1000) * (loop.i : ℚ) }

/-! ## Clock synchronisation -/

/-- How the GPS wait (lines 28-37) is left. -/
inductive GpsExit where
  /-- the `while` condition became false -/
  | left
  /-- the sensor query raised -/
  | raised
  /-- the fuel ended inside the loop -/
  | running
deriving DecidableEq

/-- State when the GPS wait is left. -/
structure GpsWait where
  trace : List Cmd
  reads : Nat
  exit : GpsExit

/-- The loop of lines 30-33:
`while (!get_mboard_sensor("gps_locked").to_bool() && !stop_signal_called)`.
`gps i` is the answer to the i-th query of the sensor.  The stop flag is read
only after the sensor answered false. -/
def gps_wait (stop : Nat → Bool) (gps : Nat → Option Bool) : Nat → Nat → Nat → GpsWait
  | 0, _, r => { trace := [], reads := r, exit := GpsExit.running }
  | fuel + 1, i, r =>
    match gps i with
    | none =>
      { trace := [Cmd.get_mboard_sensor "gps_locked" none], reads := r, exit := GpsExit.raised }
    | some true =>
      { trace := [Cmd.get_mboard_sensor "gps_locked" (some true)], reads := r,
        exit := GpsExit.left }
    | some false =>
      if stop r then
        { trace := [Cmd.get_mboard_sensor "gps_locked" (some false)], reads := r + 1,
          exit := GpsExit.left }
      else
        let rest := gps_wait stop gps fuel (i + 1) (r + 1)
        { rest with trace := Cmd.get_mboard_sensor "gps_locked" (some false) :: rest.trace }

/-- The loop of lines 44-47:
`while (!get_mboard_sensor("ref_locked").to_bool() && !stop_signal_called)`. -/
def ref_wait (stop : Nat → Bool) (ref : Nat → Bool) : Nat → Nat → Nat → Run
  | 0, _, r => { trace := [], reads := r, done := false }
  | fuel + 1, i, r =>
    if ref i then
      { trace := [Cmd.get_mboard_sensor "ref_locked" (some true)], reads := r, done := true }
    else if stop r then
      { trace := [Cmd.get_mboard_sensor "ref_locked" (some false)], reads := r + 1,
        done := true }
    else
      let rest := ref_wait stop ref fuel (i + 1) (r + 1)
      { rest with trace := Cmd.get_mboard_sensor "ref_locked" (some false) :: rest.trace }

/-- The `try` block with its handler (lines 28-41). -/
def gps_or_external (stop : Nat → Bool) (gps : Nat → Option Bool) (fuel : Nat) : GpsWait :=
  let g := gps_wait stop gps fuel 0 0
  match g.exit with
  | GpsExit.running => g
  | GpsExit.left => { g with trace := g.trace ++ [Cmd.set_sync_source "gpsdo" "gpsdo"] }
  | GpsExit.raised =>
    { g with trace := g.trace ++ [Cmd.set_time_source "external",
                                 Cmd.set_clock_source "external"] }

/-- The function `setup_time_source` (lines 26-51).  Each of the two waits gets
the fuel `fuel`. -/
def setup_time_source (stop : Nat → Bool) (gps : Nat → Option Bool) (ref : Nat → Bool)
    (fuel : Nat) : Run :=
  let g := gps_or_external stop gps fuel
  match g.exit with
  | GpsExit.running => { trace := g.trace, reads := g.reads, done := false }
  | _ =>
    let w := ref_wait stop ref fuel 0 g.reads
    if w.done then
      { trace := g.trace ++ w.trace ++ [Cmd.set_time_unknown_pps 0], reads := w.reads,
        done := true }
    else { trace := g.trace ++ w.trace, reads := w.reads, done := false }

/-! ## Waveform loading -/

/-- Size in bytes of one sample, `sizeof(samp_type)`. -/
def sizeof_samp_type : Nat := 2

/-- Conversion of a signed value to the 64-bit `size_t`. -/
def to_size_t (z : Int) : Nat := (z % 2 ^ 64).toNat

/-- Largest length a `std::vector<samp_type>` accepts; its constructor throws
`std::length_error` above it. -/
def vector_max_size : Nat := (2 ^ 63 - 1) / sizeof_samp_type

/-- The value of a byte read as `int8_t`. -/
def to_int8 (b : Byte) : Int := if b.val < 128 then (b.val : Int) else (b.val : Int) - 256

/-- The byte that stores an `int8_t` value. -/
def of_int8 (z : Int) : Byte := Fin.ofNat (z % 256).toNat

/-- Memory viewed as a sequence of samples, two bytes each. -/
def samples_of_bytes : List Byte → List samp_type
  | b0 :: b1 :: rest => { re := to_int8 b0, im := to_int8 b1 } :: samples_of_bytes rest
  | _ => []

/-- The bytes of a sequence of samples. -/
def bytes_of_samples : List samp_type → List Byte
  | [] => []
  | s :: rest => of_int8 s.re :: of_int8 s.im :: bytes_of_samples rest

/-- The waveform file as the program meets it: `content` is `none` when the
file cannot be opened; `readable` is the number of bytes the stream delivers
before a read fails. -/
structure FileEnv where
  content : Option (List Byte)
  readable : Nat

/-- Position `infile.tellg()` after `seekg(0, end)`: the length, or -1 on a
stream that failed to open. -/
def tellg (f : FileEnv) : Int :=
  match f.content with
  | none => -1
  | some bytes => (bytes.length : Int)

/-- Bytes that `infile.read(p, n)` stores from the start of the file. -/
def istream_read (f : FileEnv) (n : Nat) : List Byte :=
  match f.content with
  | none => []
  | some bytes => (bytes.take n).take f.readable

/-- The waveform load of lines 226-232.  The result is `none` when the
constructor of `buff` throws; otherwise `buff_size` and the content of `buff`
after the read (zero where the read stored nothing).  No result of the stream
operations is tested. -/
def load_waveform (f : FileEnv) : Option (Nat × List samp_type) :=
  let buff_size := to_size_t (tellg f) / sizeof_samp_type
  if buff_size > vector_max_size then none
  else
    let got := istream_read f (buff_size * sizeof_samp_type)
    let mem := got ++ List.replicate (buff_size * sizeof_samp_type - got.length) (0 : Byte)
    some (buff_size, samples_of_bytes mem)

/-! ## The main function -/

/-- Everything the program receives from outside. -/
structure Env where
  /-- `--help` is given -/
  help : Bool
  /-- value of `--frame-offset` -/
  frame_offset : ℚ
  /-- value of `--test-method` -/
  test_method : String
  /-- the n-th read of `stop_signal_called` -/
  stop : Nat → Bool
  /-- the i-th answer of the sensor "gps_locked", `none` when the query raises -/
  gps_locked : Nat → Option Bool
  /-- the i-th answer of the sensor "ref_locked" -/
  ref_locked : Nat → Bool
  /-- answer of `get_time_last_pps()` -/
  time_last_pps : ℚ
  /-- answer of `get_tx_sensor_names(0)` -/
  tx_sensor_names : List String
  /-- answer of the sensor "lo_locked" -/
  lo_locked : Bool
  /-- the waveform file -/
  file : FileEnv

/-- How the body of the main function ends. -/
inductive Outcome where
  /-- `return code;` -/
  | exit (code : Int)
  /-- an exception leaves the body -/
  | threw
  /-- the fuel ended inside a loop -/
  | running
deriving DecidableEq

/-- Modelled from the spec: the macro `UHD_SAFE_MAIN` of the driver header
`uhd/utils/safe_main.hpp` is not among the sources.  It wraps the body of the
main function: the value the body returns is the exit status of the process,
and an exception that leaves the body is reported and the process terminates
with a nonzero status, here 255 (the macro returns `~0`, of which the process
status keeps the low eight bits).  A run that is still inside a loop has no
exit status. -/
def exit_status : Outcome → Option Int
  | Outcome.exit code => some (code % 256)
  | Outcome.threw => some 255
  | Outcome.running => none

/-- Trace and end of one run of the program. -/
structure MainRun where
  trace : List Cmd
  outcome : Outcome

/-- State of the main function in front of the strategy dispatch (line 243). -/
structure Ready where
  trace : List Cmd
  reads : Nat
  td : test_data_t

/-- Lines 199-241 of the main function: from the signal handler to the
construction of `td`.  `Except.error` is a run that ends before line 243. -/
def main_setup (env : Env) (fuel : Nat) : Except MainRun Ready :=
  let s := setup_time_source env.stop env.gps_locked env.ref_locked fuel
  if !s.done then Except.error { trace := s.trace, outcome := Outcome.running }
  else
    let t1 := s.trace ++ [Cmd.set_tx_rate 44800000, Cmd.set_tx_freq 3600000000,
                          Cmd.set_tx_gain 40, Cmd.get_tx_sensor_names]
    let lo_check : Option (List Cmd) :=
      if "lo_locked" ∈ env.tx_sensor_names then
        if env.lo_locked then some (t1 ++ [Cmd.get_tx_sensor "lo_locked"])
        else none
      else some t1
    match lo_check with
    | none =>
      Except.error { trace := t1 ++ [Cmd.get_tx_sensor "lo_locked"], outcome := Outcome.threw }
    | some t2 =>
      match load_waveform env.file with
      | none => Except.error { trace := t2, outcome := Outcome.threw }
      | some (buff_size, buff) =>
        Except.ok { trace := t2 ++ [Cmd.get_tx_stream], reads := s.reads,
                    td := { frame_offset := env.frame_offset, buff_size := buff_size,
                            buff := buff } }

/-- The stop schedule as seen after `n` reads. -/
def later (stop : Nat → Bool) (n : Nat) : Nat → Bool := fun k => stop (n + k)

/-- The strategy dispatch of lines 243-254: the run of the chosen strategy, or
`none` for a name that is none of the four. -/
def dispatch (test_method : String) (td : test_data_t) (last_pps : ℚ)
    (stop : Nat → Bool) (fuel : Nat) : Option Run :=
  if test_method = "tx_metadata" then some (xmit_tx_metadata td last_pps stop fuel)
  else if test_method = "pps_edge" then some (xmit_pps_edge td stop fuel)
  else if test_method = "burst_timing" then some (xmit_burst_timing td stop fuel)
  else if test_method = "fast_timing" then some (xmit_fast_timing td stop).toRun
  else none

/-- The end of the main function after the strategy has run (lines 258-261):
`return EXIT_SUCCESS` when the strategy returned. -/
def finish (st : Ready) (r : Run) : MainRun :=
  { trace := st.trace ++ r.trace,
    outcome := if r.done then Outcome.exit 0 else Outcome.running }

/-- The body of `UHD_SAFE_MAIN` (lines 177-262). -/
def main (env : Env) (fuel : Nat) : MainRun :=
  if env.help then { trace := [], outcome := Outcome.exit 0 }
  else
    match main_setup env fuel with
    | Except.error r => r
    | Except.ok st =>
      match dispatch env.test_method st.td env.time_last_pps (later env.stop st.reads) fuel with
      | none => { trace := st.trace, outcome := Outcome.exit 1 }
      | some r => finish st r

/-! ## Inputs for the examples -/

/-- A buffer of two samples with frame offset 0. -/
def td_demo : test_data_t :=
  { frame_offset := 0, buff_size := 2, buff := [{ re := 1, im := -1 }, { re := 0, im := 5 }] }

/-- The stop schedule of a flag that is seen set from read `n` on. -/
def stop_from (n : Nat) : Nat → Bool := fun k => decide (n ≤ k)

/-- The descriptor `xmit_burst_timing` builds before its loop. -/
def burst_md : tx_metadata_t :=
  { start_of_burst := true, end_of_burst := true, has_time_spec := true, time_spec := 2 }

/-- An environment in which the run reaches the strategy dispatch: both sensors
locked at once, the LO locked, a file of four bytes read in full, and the stop
flag seen set from the third read on. -/
def env_demo : Env where
  help := false
  frame_offset := 0
  test_method := "burst_timing"
  stop := stop_from 2
  gps_locked := fun _ => some true
  ref_locked := fun _ => true
  time_last_pps := 0
  tx_sensor_names := ["lo_locked"]
  lo_locked := true
  file := { content := some [1, 2, 3, 4], readable := 4 }

/-! ## Lemmas on the send loops -/

theorem sent_cons_send (b : List samp_type) (n : Nat) (md : tx_metadata_t) (q : ℚ)
    (rest : List Cmd) : sent (Cmd.send b n md q :: rest) = md :: sent rest := rfl

theorem send_until_stop_plain (td : test_data_t) (stop : Nat → Bool) (fuel r : Nat)
    (md : tx_metadata_t) (h1 : md.has_time_spec = false) (h2 : md.start_of_burst = false) :
    ∀ d ∈ sent (send_until_stop td stop fuel r md).trace,
      d.has_time_spec = false ∧ d.start_of_burst = false := by
  induction fuel generalizing r md with
  | zero => intro d hd; simp [send_until_stop, sent] at hd
  | succ n ih =>
    intro d hd
    unfold send_until_stop at hd
    split at hd
    · simp [sent] at hd
    · simp only [sent_cons_send, List.mem_cons] at hd
      rcases hd with rfl | hd
      · exact ⟨h1, h2⟩
      · exact ih _ _ rfl rfl d hd

theorem send_until_stop_tail (td : test_data_t) (stop : Nat → Bool) (fuel r : Nat)
    (md : tx_metadata_t) :
    ∀ d ∈ (sent (send_until_stop td stop fuel r md).trace).tail,
      d.has_time_spec = false ∧ d.start_of_burst = false := by
  cases fuel with
  | zero => intro d hd; simp [send_until_stop, sent] at hd
  | succ n =>
    intro d hd
    unfold send_until_stop at hd
    split at hd
    · simp [sent] at hd
    · simp only [sent_cons_send, List.tail_cons] at hd
      exact send_until_stop_plain td stop n _ _ rfl rfl d hd

theorem fast_loop_plain (td : test_data_t) (stop : Nat → Bool) (fuel i r : Nat)
    (md : tx_metadata_t) (h1 : md.has_time_spec = false) (h2 : md.start_of_burst = false) :
    ∀ d ∈ sent (fast_loop td stop fuel i r md).trace,
      d.has_time_spec = false ∧ d.start_of_burst = false := by
  induction fuel generalizing i r md with
  | zero => intro d hd; simp [fast_loop, sent] at hd
  | succ n ih =>
    intro d hd
    unfold fast_loop at hd
    split at hd
    · split at hd
      · simp [sent] at hd
      · simp only [sent_cons_send, List.mem_cons] at hd
        rcases hd with rfl | hd
        · exact ⟨h1, h2⟩
        · exact ih _ _ _ rfl rfl d hd
    · simp [sent] at hd

theorem fast_loop_tail (td : test_data_t) (stop : Nat → Bool) (fuel i r : Nat)
    (md : tx_metadata_t) :
    ∀ d ∈ (sent (fast_loop td stop fuel i r md).trace).tail,
      d.has_time_spec = false ∧ d.start_of_burst = false := by
  cases fuel with
  | zero => intro d hd; simp [fast_loop, sent] at hd
  | succ n =>
    intro d hd
    unfold fast_loop at hd
    split at hd
    · split at hd
      · simp [sent] at hd
      · simp only [sent_cons_send, List.tail_cons] at hd
        exact fast_loop_plain td stop n _ _ _ rfl rfl d hd
    · simp [sent] at hd

theorem burst_loop_sent (td : test_data_t) (stop : Nat → Bool) (md : tx_metadata_t)
    (fuel r : Nat) : ∀ d ∈ sent (burst_loop td stop md fuel r).trace, d = md := by
  induction fuel generalizing r with
  | zero => intro d hd; simp [burst_loop, sent] at hd
  | succ n ih =>
    intro d hd
    unfold burst_loop at hd
    split at hd
    · simp [sent] at hd
    · simp only [sent, List.mem_cons] at hd
      rcases hd with rfl | hd
      · rfl
      · exact ih _ d hd

theorem fast_loop_counter (td : test_data_t) (stop : Nat → Bool) (fuel i r : Nat)
    (md : tx_metadata_t) :
    (fast_loop td stop fuel i r md).i
      = i + (sent (fast_loop td stop fuel i r md).trace).length := by
  induction fuel generalizing i r md with
  | zero => simp [fast_loop, sent]
  | succ n ih =>
    unfold fast_loop
    split
    · split
      · simp [sent]
      · simp only [sent_cons_send, List.length_cons]
        rw [ih]
        omega
    · simp [sent]

theorem fast_loop_counter_le (td : test_data_t) (stop : Nat → Bool) (fuel i r : Nat)
    (md : tx_metadata_t) (hi : i ≤ 50) : (fast_loop td stop fuel i r md).i ≤ 50 := by
  induction fuel generalizing i r md with
  | zero => simpa [fast_loop] using hi
  | succ n ih =>
    unfold fast_loop
    split
    · split
      · simpa using hi
      · exact ih _ _ _ (by omega)
    · simpa using hi

theorem fast_loop_done (td : test_data_t) (stop : Nat → Bool) (fuel i r : Nat)
    (md : tx_metadata_t) (hfuel : 50 < fuel + i) (hi : i ≤ 50) :
    (fast_loop td stop fuel i r md).done = true := by
  induction fuel generalizing i r md with
  | zero => omega
  | succ n ih =>
    unfold fast_loop
    split
    · split
      · rfl
      · exact ih _ _ _ (by omega) (by omega)
    · rfl

theorem fast_loop_stop (td : test_data_t) (stop : Nat → Bool) (fuel i r : Nat)
    (md : tx_metadata_t) (k : Nat) (hfalse : ∀ j, j < k → stop (r + j) = false)
    (htrue : i + k < 50 → stop (r + k) = true) (hfuel : 50 < fuel + i) (hi : i ≤ 50) :
    (fast_loop td stop fuel i r md).i = min 50 (i + k)
      ∧ (fast_loop td stop fuel i r md).reads = r + min (50 - i) (k + 1) := by
  induction fuel generalizing i r md k with
  | zero => omega
  | succ n ih =>
    unfold fast_loop
    split
    · rename_i hlt
      split
      · rename_i hs
        have hk : k = 0 := by
          rcases Nat.eq_zero_or_pos k with h0 | hpos
          · exact h0
          · have := hfalse 0 hpos
            simp [hs] at this
        subst hk
        simp
        omega
      · rename_i hs
        have hk : k ≠ 0 := by
          intro h0
          subst h0
          exact hs (htrue (by omega))
        obtain ⟨k1, rfl⟩ := Nat.exists_eq_succ_of_ne_zero hk
        have h := ih (i + 1) (r + 1)
          { md with has_time_spec := false, start_of_burst := false } k1
          (fun j hj => by
            have := hfalse (j + 1) (by omega)
            rwa [show r + 1 + j = r + (j + 1) by omega])
          (fun hlt1 => by
            have := htrue (by omega)
            rwa [show r + 1 + k1 = r + (k1 + 1) by omega])
          (by omega) (by omega)
        simp only
        rw [h.1, h.2]
        omega
    · have h50 : i = 50 := by omega
      subst h50
      simp

theorem burst_loop_shape (td : test_data_t) (stop : Nat → Bool) (md : tx_metadata_t)
    (fuel r : Nat) :
    ∃ n, n ≤ fuel ∧ (∀ j, j < n → stop (r + j) = false) ∧
      (burst_loop td stop md fuel r).trace
        = (List.replicate n [Cmd.set_time_now 0, Cmd.send td.buff td.buff_size md 4]).flatten ∧
      ((burst_loop td stop md fuel r).done = true → stop (r + n) = true) ∧
      ((burst_loop td stop md fuel r).done = false → n = fuel) := by
  induction fuel generalizing r with
  | zero => exact ⟨0, le_refl _, by intro j hj; omega, by simp [burst_loop], by simp [burst_loop],
      by simp⟩
  | succ m ih =>
    unfold burst_loop
    split
    · rename_i hs
      exact ⟨0, by omega, by intro j hj; omega, by simp, by simpa using hs, by simp⟩
    · rename_i hs
      obtain ⟨n, hn, hfalse, htrace, hdone, hrun⟩ := ih (r + 1)
      refine ⟨n + 1, by omega, ?_, ?_, ?_, ?_⟩
      · intro j hj
        rcases Nat.eq_zero_or_pos j with h0 | hpos
        · subst h0; simpa using hs
        · have := hfalse (j - 1) (by omega)
          rwa [show r + 1 + (j - 1) = r + j by omega] at this
      · simp only [htrace, List.replicate_succ, List.flatten_cons, List.cons_append,
          List.nil_append]
      · intro hd
        have := hdone hd
        rwa [show r + 1 + n = r + (n + 1) by omega] at this
      · intro hd
        have := hrun hd
        omega

theorem burst_loop_buff (td1 td2 : test_data_t) (stop : Nat → Bool) (md : tx_metadata_t)
    (fuel r : Nat) (hb : td1.buff = td2.buff) (hs : td1.buff_size = td2.buff_size) :
    burst_loop td1 stop md fuel r = burst_loop td2 stop md fuel r := by
  induction fuel generalizing r with
  | zero => rfl
  | succ m ih =>
    unfold burst_loop
    rw [ih, hb, hs]

/-! ## Lemmas on the clock synchronisation -/

theorem gps_wait_shape (stop : Nat → Bool) (gps : Nat → Option Bool) (fuel i r : Nat) :
    ∃ n last, (gps_wait stop gps fuel i r).trace
        = List.replicate n (Cmd.get_mboard_sensor "gps_locked" (some false)) ++ last ∧
      (((gps_wait stop gps fuel i r).exit = GpsExit.raised
          ∧ last = [Cmd.get_mboard_sensor "gps_locked" none])
        ∨ ((gps_wait stop gps fuel i r).exit = GpsExit.left
          ∧ (last = [Cmd.get_mboard_sensor "gps_locked" (some true)]
              ∨ last = [Cmd.get_mboard_sensor "gps_locked" (some false)]))
        ∨ ((gps_wait stop gps fuel i r).exit = GpsExit.running ∧ last = [])) := by
  induction fuel generalizing i r with
  | zero => exact ⟨0, [], by simp [gps_wait], Or.inr (Or.inr ⟨by simp [gps_wait], rfl⟩)⟩
  | succ m ih =>
    unfold gps_wait
    split
    · exact ⟨0, _, by simp, Or.inl ⟨rfl, rfl⟩⟩
    · exact ⟨0, _, by simp, Or.inr (Or.inl ⟨rfl, Or.inl rfl⟩)⟩
    · split
      · exact ⟨0, _, by simp, Or.inr (Or.inl ⟨rfl, Or.inr rfl⟩)⟩
      · obtain ⟨n, last, htrace, hcase⟩ := ih (i + 1) (r + 1)
        refine ⟨n + 1, last, ?_, hcase⟩
        simp only [htrace, List.replicate_succ, List.cons_append]

theorem gps_wait_left_iff (stop : Nat → Bool) (gps : Nat → Option Bool) (fuel i r : Nat) :
    (gps_wait stop gps fuel i r).exit = GpsExit.left ↔
      ∃ n, n < fuel ∧ (∀ j, j < n → gps (i + j) = some false ∧ stop (r + j) = false) ∧
        (gps (i + n) = some true ∨ (gps (i + n) = some false ∧ stop (r + n) = true)) := by
  induction fuel generalizing i r with
  | zero => simp [gps_wait]
  | succ m ih =>
    unfold gps_wait
    split
    · rename_i hg
      constructor
      · intro h; simp at h
      · rintro ⟨n, _, hfalse, hlast⟩
        rcases Nat.eq_zero_or_pos n with h0 | hpos
        · subst h0; simp [hg] at hlast
        · have := (hfalse 0 hpos).1
          simp [hg] at this
    · rename_i hg
      constructor
      · intro _
        exact ⟨0, by omega, by intro j hj; omega, Or.inl (by simpa using hg)⟩
      · intro _; rfl
    · rename_i hg
      split
      · rename_i hs
        constructor
        · intro _
          exact ⟨0, by omega, by intro j hj; omega,
            Or.inr ⟨by simpa using hg, by simpa using hs⟩⟩
        · intro _; rfl
      · rename_i hs
        simp only
        rw [ih]
        constructor
        · rintro ⟨n, hn, hfalse, hlast⟩
          refine ⟨n + 1, by omega, ?_, ?_⟩
          · intro j hj
            rcases Nat.eq_zero_or_pos j with h0 | hpos
            · subst h0
              exact ⟨by simpa using hg, by simpa using hs⟩
            · have := hfalse (j - 1) (by omega)
              rwa [show i + 1 + (j - 1) = i + j by omega,
                show r + 1 + (j - 1) = r + j by omega] at this
          · rwa [show i + 1 + n = i + (n + 1) by omega,
              show r + 1 + n = r + (n + 1) by omega] at hlast
        · rintro ⟨n, hn, hfalse, hlast⟩
          rcases Nat.eq_zero_or_pos n with h0 | hpos
          · subst h0
            simp [hg, hs] at hlast
          · refine ⟨n - 1, by omega, ?_, ?_⟩
            · intro j hj
              have := hfalse (j + 1) (by omega)
              rwa [show i + (j + 1) = i + 1 + j by omega,
                show r + (j + 1) = r + 1 + j by omega] at this
            · rwa [show i + n = i + 1 + (n - 1) by omega,
                show r + n = r + 1 + (n - 1) by omega] at hlast

theorem ref_wait_trace (stop : Nat → Bool) (ref : Nat → Bool) (fuel i r : Nat) :
    ∀ c ∈ (ref_wait stop ref fuel i r).trace,
      ∃ b, c = Cmd.get_mboard_sensor "ref_locked" (some b) := by
  induction fuel generalizing i r with
  | zero => intro c hc; simp [ref_wait] at hc
  | succ m ih =>
    intro c hc
    unfold ref_wait at hc
    split at hc
    · simp at hc; exact ⟨true, hc⟩
    · split at hc
      · simp at hc; exact ⟨false, hc⟩
      · simp only [List.mem_cons] at hc
        rcases hc with rfl | hc
        · exact ⟨false, rfl⟩
        · exact ih _ _ c hc

theorem setup_time_source_shape (stop : Nat → Bool) (gps : Nat → Option Bool)
    (ref : Nat → Bool) (fuel : Nat) :
    ∃ n last mid rest,
      (setup_time_source stop gps ref fuel).trace
        = List.replicate n (Cmd.get_mboard_sensor "gps_locked" (some false))
            ++ last ++ mid ++ rest ∧
      (∀ c ∈ rest, (∃ b, c = Cmd.get_mboard_sensor "ref_locked" (some b))
          ∨ c = Cmd.set_time_unknown_pps 0) ∧
      (((gps_wait stop gps fuel 0 0).exit = GpsExit.raised
          ∧ last = [Cmd.get_mboard_sensor "gps_locked" none]
          ∧ mid = [Cmd.set_time_source "external", Cmd.set_clock_source "external"])
        ∨ ((gps_wait stop gps fuel 0 0).exit = GpsExit.left
          ∧ (last = [Cmd.get_mboard_sensor "gps_locked" (some true)]
              ∨ last = [Cmd.get_mboard_sensor "gps_locked" (some false)])
          ∧ mid = [Cmd.set_sync_source "gpsdo" "gpsdo"])
        ∨ ((gps_wait stop gps fuel 0 0).exit = GpsExit.running
          ∧ last = [] ∧ mid = [] ∧ rest = [])) := by
  obtain ⟨n, last, htrace, hcase⟩ := gps_wait_shape stop gps fuel 0 0
  have hrest : ∀ (r : Nat) (tl : List Cmd),
      (tl = (ref_wait stop ref fuel 0 r).trace ++ [Cmd.set_time_unknown_pps 0]
        ∨ tl = (ref_wait stop ref fuel 0 r).trace) →
      ∀ c ∈ tl, (∃ b, c = Cmd.get_mboard_sensor "ref_locked" (some b))
          ∨ c = Cmd.set_time_unknown_pps 0 := by
    intro r tl htl c hc
    rcases htl with rfl | rfl
    · rcases List.mem_append.1 hc with h | h
      · exact Or.inl (ref_wait_trace stop ref fuel 0 r c h)
      · exact Or.inr (by simpa using h)
    · exact Or.inl (ref_wait_trace stop ref fuel 0 r c hc)
  rcases hcase with ⟨hexit, hlast⟩ | ⟨hexit, hlast⟩ | ⟨hexit, hlast⟩
  · by_cases hw : (ref_wait stop ref fuel 0 (gps_wait stop gps fuel 0 0).reads).done = true
    · refine ⟨n, last, [Cmd.set_time_source "external", Cmd.set_clock_source "external"],
        (ref_wait stop ref fuel 0 (gps_wait stop gps fuel 0 0).reads).trace
          ++ [Cmd.set_time_unknown_pps 0],
        ?_, hrest _ _ (Or.inl rfl), Or.inl ⟨hexit, hlast, rfl⟩⟩
      simp [setup_time_source, gps_or_external, hexit, htrace, hw]
    · refine ⟨n, last, [Cmd.set_time_source "external", Cmd.set_clock_source "external"],
        (ref_wait stop ref fuel 0 (gps_wait stop gps fuel 0 0).reads).trace,
        ?_, hrest _ _ (Or.inr rfl), Or.inl ⟨hexit, hlast, rfl⟩⟩
      simp [setup_time_source, gps_or_external, hexit, htrace, hw]
  · by_cases hw : (ref_wait stop ref fuel 0 (gps_wait stop gps fuel 0 0).reads).done = true
    · refine ⟨n, last, [Cmd.set_sync_source "gpsdo" "gpsdo"],
        (ref_wait stop ref fuel 0 (gps_wait stop gps fuel 0 0).reads).trace
          ++ [Cmd.set_time_unknown_pps 0],
        ?_, hrest _ _ (Or.inl rfl), Or.inr (Or.inl ⟨hexit, hlast, rfl⟩)⟩
      simp [setup_time_source, gps_or_external, hexit, htrace, hw]
    · refine ⟨n, last, [Cmd.set_sync_source "gpsdo" "gpsdo"],
        (ref_wait stop ref fuel 0 (gps_wait stop gps fuel 0 0).reads).trace,
        ?_, hrest _ _ (Or.inr rfl), Or.inr (Or.inl ⟨hexit, hlast, rfl⟩)⟩
      simp [setup_time_source, gps_or_external, hexit, htrace, hw]
  · refine ⟨n, last, [], [], ?_, by simp, Or.inr (Or.inr ⟨hexit, hlast, rfl, rfl⟩)⟩
    simp [setup_time_source, gps_or_external, hexit, htrace]

/-! ## Lemmas on the waveform load -/

theorem of_int8_val (z : Int) : (of_int8 z).val = (z % 256).toNat := by
  unfold of_int8
  simp [Fin.ofNat]
  omega

theorem of_int8_to_int8 (b : Byte) : of_int8 (to_int8 b) = b := by
  apply Fin.ext
  rw [of_int8_val]
  have hb := b.isLt
  unfold to_int8
  split <;> omega

theorem to_int8_of_int8 (z : Int) (hlo : -128 ≤ z) (hhi : z ≤ 127) :
    to_int8 (of_int8 z) = z := by
  unfold to_int8
  rw [of_int8_val]
  split <;> omega

theorem samples_of_bytes_length : ∀ bytes : List Byte,
    (samples_of_bytes bytes).length = bytes.length / 2
  | [] => rfl
  | [_] => by simp [samples_of_bytes]
  | _ :: _ :: rest => by
    simp only [samples_of_bytes, List.length_cons, samples_of_bytes_length rest]
    omega

theorem bytes_of_samples_length : ∀ samples : List samp_type,
    (bytes_of_samples samples).length = 2 * samples.length
  | [] => rfl
  | _ :: rest => by
    simp only [bytes_of_samples, List.length_cons, bytes_of_samples_length rest]
    omega

theorem bytes_of_samples_of_bytes : ∀ bytes : List Byte,
    bytes_of_samples (samples_of_bytes bytes) = bytes.take (2 * (bytes.length / 2))
  | [] => rfl
  | [_] => by simp [samples_of_bytes, bytes_of_samples]
  | b0 :: b1 :: rest => by
    have h : 2 * ((b0 :: b1 :: rest).length / 2) = 2 * (rest.length / 2) + 1 + 1 := by
      simp only [List.length_cons]
      omega
    rw [h]
    simp only [samples_of_bytes, bytes_of_samples, of_int8_to_int8, List.take_succ_cons,
      bytes_of_samples_of_bytes rest]

theorem samples_of_bytes_of_samples : ∀ samples : List samp_type,
    (∀ s ∈ samples, -128 ≤ s.re ∧ s.re ≤ 127 ∧ -128 ≤ s.im ∧ s.im ≤ 127) →
    samples_of_bytes (bytes_of_samples samples) = samples
  | [], _ => rfl
  | s :: rest, h => by
    have hs := h s (List.mem_cons_self _ _)
    simp only [bytes_of_samples, samples_of_bytes,
      to_int8_of_int8 s.re hs.1 hs.2.1, to_int8_of_int8 s.im hs.2.2.1 hs.2.2.2,
      samples_of_bytes_of_samples rest (fun x hx => h x (List.mem_cons_of_mem _ hx))]

theorem samples_of_bytes_take : ∀ bytes : List Byte,
    samples_of_bytes (bytes.take (2 * (bytes.length / 2))) = samples_of_bytes bytes
  | [] => rfl
  | [_] => by simp [samples_of_bytes]
  | b0 :: b1 :: rest => by
    have h : 2 * ((b0 :: b1 :: rest).length / 2) = 2 * (rest.length / 2) + 1 + 1 := by
      simp only [List.length_cons]
      omega
    rw [h]
    simp only [List.take_succ_cons, samples_of_bytes, samples_of_bytes_take rest]

theorem load_waveform_open (bytes : List Byte) (readable : Nat)
    (hsize : bytes.length < 2 ^ 63) :
    load_waveform { content := some bytes, readable := readable }
      = some (bytes.length / 2,
          samples_of_bytes ((bytes.take (2 * (bytes.length / 2))).take readable
            ++ List.replicate (2 * (bytes.length / 2) - min readable (2 * (bytes.length / 2)))
                (0 : Byte))) := by
  have hconv : to_size_t (bytes.length : Int) = bytes.length := by
    unfold to_size_t
    omega
  have hmax : ¬ bytes.length / 2 > vector_max_size := by
    unfold vector_max_size sizeof_samp_type
    omega
  have hlen : min (2 * (bytes.length / 2)) bytes.length = 2 * (bytes.length / 2) := by
    omega
  simp only [load_waveform, tellg, hconv, istream_read, sizeof_samp_type]
  rw [if_neg (by simpa [sizeof_samp_type] using hmax)]
  simp only [Nat.mul_comm (bytes.length / 2) 2, List.length_take, hlen]

theorem load_waveform_full (bytes : List Byte) (readable : Nat)
    (hsize : bytes.length < 2 ^ 63) (hread : 2 * (bytes.length / 2) ≤ readable) :
    load_waveform { content := some bytes, readable := readable }
      = some (bytes.length / 2, samples_of_bytes bytes) := by
  rw [load_waveform_open bytes readable hsize]
  have h1 : (bytes.take (2 * (bytes.length / 2))).take readable
      = bytes.take (2 * (bytes.length / 2)) := by
    rw [List.take_take]
    congr 1
    omega
  have h2 : 2 * (bytes.length / 2) - min readable (2 * (bytes.length / 2)) = 0 := by omega
  rw [h1, h2]
  simp [samples_of_bytes_take]

theorem load_waveform_closed (readable : Nat) :
    load_waveform { content := none, readable := readable } = none := by
  have h : to_size_t (-1) / sizeof_samp_type > vector_max_size := by decide
  simp only [load_waveform, tellg]
  rw [if_pos h]

/-! ## Lemmas on the main function -/

theorem setup_time_source_quiet (stop : Nat → Bool) (gps : Nat → Option Bool)
    (ref : Nat → Bool) (fuel : Nat) :
    ∀ c ∈ (setup_time_source stop gps ref fuel).trace,
      c.is_send = false ∧ c ≠ Cmd.get_tx_stream := by
  obtain ⟨n, last, mid, rest, htrace, hrest, hcase⟩ :=
    setup_time_source_shape stop gps ref fuel
  intro c hc
  rw [htrace] at hc
  simp only [List.mem_append, List.mem_replicate] at hc
  rcases hc with ((⟨_, rfl⟩ | hc) | hc) | hc
  · exact ⟨rfl, by simp⟩
  · rcases hcase with ⟨_, rfl, _⟩ | ⟨_, hlast, _⟩ | ⟨_, rfl, _⟩
    · simp at hc; subst hc; exact ⟨rfl, by simp⟩
    · rcases hlast with rfl | rfl <;> simp at hc <;> subst hc <;> exact ⟨rfl, by simp⟩
    · simp at hc
  · rcases hcase with ⟨_, _, rfl⟩ | ⟨_, _, rfl⟩ | ⟨_, _, rfl, _⟩
    · simp at hc; rcases hc with rfl | rfl <;> exact ⟨rfl, by simp⟩
    · simp at hc; subst hc; exact ⟨rfl, by simp⟩
    · simp at hc
  · rcases hrest c hc with ⟨b, rfl⟩ | rfl <;> exact ⟨rfl, by simp⟩

theorem main_setup_error_quiet (env : Env) (fuel : Nat) (r : MainRun)
    (h : main_setup env fuel = Except.error r) :
    (∀ c ∈ r.trace, c.is_send = false ∧ c ≠ Cmd.get_tx_stream)
    ∧ (r.outcome = Outcome.threw ∨ r.outcome = Outcome.running)
    ∧ (r.outcome = Outcome.running ↔
        (setup_time_source env.stop env.gps_locked env.ref_locked fuel).done = false) := by
  have hq := setup_time_source_quiet env.stop env.gps_locked env.ref_locked fuel
  unfold main_setup at h
  simp only at h
  split at h
  · rename_i hdone
    injection h with h
    subst h
    refine ⟨hq, Or.inr rfl, ?_⟩
    simpa using hdone
  · rename_i hdone
    have hdone2 : (setup_time_source env.stop env.gps_locked env.ref_locked fuel).done
        = true := by simpa using hdone
    split at h
    · injection h with h
      subst h
      refine ⟨?_, Or.inl rfl, by simp [hdone2]⟩
      intro c hc
      simp only [List.mem_append, List.mem_cons, List.mem_singleton, List.not_mem_nil,
        or_false] at hc
      rcases hc with (hc | rfl | rfl | rfl | rfl) | rfl
      · exact hq c hc
      all_goals exact ⟨rfl, by simp⟩
    · rename_i t2 hlo
      split at h
      · injection h with h
        subst h
        refine ⟨?_, Or.inl rfl, by simp [hdone2]⟩
        intro c hc
        split at hlo
        · split at hlo
          · injection hlo with hlo
            subst hlo
            simp only [List.mem_append, List.mem_cons, List.mem_singleton, List.not_mem_nil,
              or_false] at hc
            rcases hc with (hc | rfl | rfl | rfl | rfl) | rfl
            · exact hq c hc
            all_goals exact ⟨rfl, by simp⟩
          · simp at hlo
        · injection hlo with hlo
          subst hlo
          simp only [List.mem_append, List.mem_cons, List.mem_singleton, List.not_mem_nil,
            or_false] at hc
          rcases hc with hc | rfl | rfl | rfl | rfl
          · exact hq c hc
          all_goals exact ⟨rfl, by simp⟩
      · simp at h

theorem main_setup_ok_quiet (env : Env) (fuel : Nat) (st : Ready)
    (h : main_setup env fuel = Except.ok st) :
    (∀ c ∈ st.trace, c.is_send = false)
    ∧ (setup_time_source env.stop env.gps_locked env.ref_locked fuel).done = true
    ∧ ("lo_locked" ∈ env.tx_sensor_names → env.lo_locked = true)
    ∧ load_waveform env.file = some (st.td.buff_size, st.td.buff)
    ∧ st.td.frame_offset = env.frame_offset
    ∧ st.reads = (setup_time_source env.stop env.gps_locked env.ref_locked fuel).reads := by
  have hq := setup_time_source_quiet env.stop env.gps_locked env.ref_locked fuel
  unfold main_setup at h
  simp only at h
  split at h
  · simp at h
  · rename_i hdone
    have hdone2 : (setup_time_source env.stop env.gps_locked env.ref_locked fuel).done
        = true := by simpa using hdone
    split at h
    · simp at h
    · rename_i t2 hlo
      split at h
      · simp at h
      · rename_i n buff hload
        injection h with h
        subst h
        refine ⟨?_, hdone2, ?_, hload, rfl, rfl⟩
        · intro c hc
          split at hlo
          · split at hlo
            · injection hlo with hlo
              subst hlo
              simp only [List.mem_append, List.mem_cons, List.mem_singleton, List.not_mem_nil,
                or_false] at hc
              rcases hc with ((hc | rfl | rfl | rfl | rfl) | rfl) | rfl
              · exact (hq c hc).1
              all_goals rfl
            · simp at hlo
          · injection hlo with hlo
            subst hlo
            simp only [List.mem_append, List.mem_cons, List.mem_singleton, List.not_mem_nil,
              or_false] at hc
            rcases hc with (hc | rfl | rfl | rfl | rfl) | rfl
            · exact (hq c hc).1
            all_goals rfl
        · intro hmem
          split at hlo
          · split at hlo
            · assumption
            · simp at hlo
          · contradiction

theorem gps_wait_stops (stop : Nat → Bool) (gps : Nat → Option Bool) (K : Nat)
    (hstop : ∀ n, K ≤ n → stop n = true) (fuel i r : Nat) (hfuel : K < fuel + r)
    (hpos : 0 < fuel) : (gps_wait stop gps fuel i r).exit ≠ GpsExit.running := by
  induction fuel generalizing i r with
  | zero => omega
  | succ m ih =>
    unfold gps_wait
    split
    · simp
    · simp
    · split
      · simp
      · rename_i hs
        have hr : r < K := by
          by_contra hge
          exact hs (hstop r (by omega))
        exact ih (i + 1) (r + 1) (by omega) (by omega)

theorem ref_wait_stops (stop : Nat → Bool) (ref : Nat → Bool) (K : Nat)
    (hstop : ∀ n, K ≤ n → stop n = true) (fuel i r : Nat) (hfuel : K < fuel + r)
    (hpos : 0 < fuel) : (ref_wait stop ref fuel i r).done = true := by
  induction fuel generalizing i r with
  | zero => omega
  | succ m ih =>
    unfold ref_wait
    split
    · rfl
    · split
      · rfl
      · rename_i hs
        have hr : r < K := by
          by_contra hge
          exact hs (hstop r (by omega))
        exact ih (i + 1) (r + 1) (by omega) (by omega)

/-- Termination of the clock synchronisation: when the stop flag is seen set
from read `K` on, `setup_time_source` returns within `K + 1` loop-head tests
of each wait. -/
theorem setup_time_source_returns (stop : Nat → Bool) (gps : Nat → Option Bool)
    (ref : Nat → Bool) (K fuel : Nat) (hstop : ∀ n, K ≤ n → stop n = true)
    (hfuel : K < fuel) : (setup_time_source stop gps ref fuel).done = true := by
  have hg := gps_wait_stops stop gps K hstop fuel 0 0 (by omega) (by omega)
  have hw := fun r => ref_wait_stops stop ref K hstop fuel 0 r (by omega) (by omega)
  unfold setup_time_source gps_or_external
  cases hexit : (gps_wait stop gps fuel 0 0).exit with
  | running => exact absurd hexit hg
  | left => simp [hexit, hw]
  | raised => simp [hexit, hw]

/-- A run reaches the strategy dispatch when the clock synchronisation returns,
the LO-lock assertion passes and the file can be opened. -/
theorem main_setup_reaches (env : Env) (fuel : Nat) (bytes : List Byte)
    (hdone : (setup_time_source env.stop env.gps_locked env.ref_locked fuel).done = true)
    (hlo : "lo_locked" ∈ env.tx_sensor_names → env.lo_locked = true)
    (hfile : env.file.content = some bytes) (hsize : bytes.length < 2 ^ 63) :
    ∃ st, main_setup env fuel = Except.ok st ∧ st.td.buff_size = bytes.length / 2
      ∧ st.td.frame_offset = env.frame_offset := by
  have hload := load_waveform_open bytes env.file.readable hsize
  have hfile2 : env.file = { content := some bytes, readable := env.file.readable } := by
    cases hf : env.file with
    | mk content readable =>
      rw [hf] at hfile
      simp only at hfile
      subst hfile
      rfl
  rw [← hfile2] at hload
  unfold main_setup
  simp only [hdone, hload]
  by_cases hmem : "lo_locked" ∈ env.tx_sensor_names
  · simp [hmem, hlo hmem]
  · simp [hmem]

theorem main_file_only_through_load (env : Env) (file : FileEnv) (fuel : Nat)
    (h : load_waveform file = load_waveform env.file) :
    main { env with file := file } fuel = main env fuel := by
  simp only [main, main_setup, h]

/-! ## C1 -/

/-- C1, counterexample: in `xmit_burst_timing` with the stop flag seen set at
the third read, two descriptors are sent and the second one still has
`has_time_spec = true`, so not every descriptor after the first has
`has_time_spec = false` and `start_of_burst = false`. -/
theorem burst_timing_second_send_timed :
    ¬ (∀ d ∈ (sent (xmit_burst_timing td_demo (stop_from 2) 3).trace).tail,
        d.has_time_spec = false ∧ d.start_of_burst = false) := by
  intro h
  have h2 := h burst_md (by
    simp [xmit_burst_timing, burst_loop, stop_from, sent, burst_md, tx_metadata_t.init])
  simp [burst_md] at h2

/-- C1, amended: in `xmit_tx_metadata`, `xmit_pps_edge` and `xmit_fast_timing`
every descriptor passed to `send` after the first has `has_time_spec = false`
and `start_of_burst = false`, for every stop schedule and every length of the
run; in `xmit_burst_timing` every descriptor passed to `send` has
`has_time_spec = true` and `start_of_burst = true`. -/
theorem later_sends_by_strategy (td : test_data_t) (last_pps : ℚ) (stop : Nat → Bool)
    (fuel : Nat) :
    (∀ d ∈ (sent (xmit_tx_metadata td last_pps stop fuel).trace).tail,
        d.has_time_spec = false ∧ d.start_of_burst = false)
    ∧ (∀ d ∈ (sent (xmit_pps_edge td stop fuel).trace).tail,
        d.has_time_spec = false ∧ d.start_of_burst = false)
    ∧ (∀ d ∈ (sent (xmit_fast_timing td stop).trace).tail,
        d.has_time_spec = false ∧ d.start_of_burst = false)
    ∧ (∀ d ∈ sent (xmit_burst_timing td stop fuel).trace,
        d.has_time_spec = true ∧ d.start_of_burst = true) := by
  refine ⟨?_, ?_, ?_, ?_⟩
  · intro d hd
    exact send_until_stop_tail td stop fuel 0 _ d (by simpa [xmit_tx_metadata, sent] using hd)
  · intro d hd
    exact send_until_stop_tail td stop fuel 0 _ d (by simpa [xmit_pps_edge, sent] using hd)
  · intro d hd
    exact fast_loop_tail td stop 51 0 0 _ d (by simpa [xmit_fast_timing, sent] using hd)
  · intro d hd
    have := burst_loop_sent td stop _ fuel 0 d (by simpa [xmit_burst_timing] using hd)
    subst this
    exact ⟨rfl, rfl⟩

/-! ## C2 -/

/-- C2: when the first `k` reads of the stop flag at the loop head see it false
and, if `k < 50`, the next read sees it true, `xmit_fast_timing` returns after
exactly `min 50 k` calls of `send`; it never makes more than 50, and it reads
the flag `min 50 (k + 1)` times, so no `send` follows a read that saw the flag
true. -/
theorem fast_timing_send_count (td : test_data_t) (stop : Nat → Bool) (k : Nat)
    (hfalse : ∀ j, j < k → stop j = false) (htrue : k < 50 → stop k = true) :
    (xmit_fast_timing td stop).done = true
    ∧ (sent (xmit_fast_timing td stop).trace).length = min 50 k
    ∧ (sent (xmit_fast_timing td stop).trace).length ≤ 50
    ∧ (xmit_fast_timing td stop).reads = min 50 (k + 1) := by
  have key : ∀ md : tx_metadata_t,
      (fast_loop td stop 51 0 0 md).done = true
      ∧ (sent (fast_loop td stop 51 0 0 md).trace).length = min 50 k
      ∧ (sent (fast_loop td stop 51 0 0 md).trace).length ≤ 50
      ∧ (fast_loop td stop 51 0 0 md).reads = min 50 (k + 1) := by
    intro md
    have hc := fast_loop_counter td stop 51 0 0 md
    have hs := fast_loop_stop td stop 51 0 0 md k
      (fun j hj => by simpa using hfalse j hj) (fun h => by simpa using htrue (by omega))
      (by omega) (by omega)
    have hd := fast_loop_done td stop 51 0 0 md (by omega) (by omega)
    refine ⟨hd, by omega, by omega, by omega⟩
  simpa [xmit_fast_timing, sent] using key _

/-- C2, witness: with the stop flag seen set at the fourth read, three sends. -/
theorem fast_timing_send_count_witness :
    (∀ j, j < 3 → stop_from 3 j = false) ∧ (3 < 50 → stop_from 3 3 = true)
    ∧ (sent (xmit_fast_timing td_demo (stop_from 3)).trace).length = min 50 3 :=
  ⟨fun j hj => by simp [stop_from]; omega, fun _ => by simp [stop_from],
   (fast_timing_send_count td_demo (stop_from 3) 3
    (fun j hj => by simp [stop_from]; omega) (fun _ => by simp [stop_from])).2.1⟩

/-! ## C3 -/

/-- C3, counterexample: with the test method "bogus" and the sensor
"lo_locked" present and answering false, the run is ended by the exception of
the LO-lock assertion (line 222); it does not return exit status 1. -/
theorem unknown_method_lo_unlocked :
    (main { env_demo with test_method := "bogus", lo_locked := false } 5).outcome
        = Outcome.threw
    ∧ (main { env_demo with test_method := "bogus", lo_locked := false } 5).outcome
        ≠ Outcome.exit 1 := by
  decide

/-- C3, amended: with `--help` absent and a test method that is none of the
four names, the trace of the run holds no `send`, and a run that reaches the
strategy dispatch returns exit status 1 with nothing added to the trace; the
run reaches the dispatch when the clock synchronisation has returned, the
LO-lock assertion passes (the sensor is absent or answers true) and the file
can be opened.  A run that does not reach the dispatch ends earlier, by an
exception or still inside a clock wait, and does not return 1; so for an
unknown name 1 is returned exactly by the runs that reach the dispatch.  For
each of the four names a run that reaches the dispatch continues with exactly
the strategy of that name, and returns 0 when the strategy returns. -/
theorem dispatch_by_name (env : Env) (fuel : Nat) (hhelp : env.help = false) :
    (env.test_method ∉ ["tx_metadata", "pps_edge", "burst_timing", "fast_timing"] →
      (∀ c ∈ (main env fuel).trace, c.is_send = false)
      ∧ (∀ st, main_setup env fuel = Except.ok st →
          main env fuel = { trace := st.trace, outcome := Outcome.exit 1 })
      ∧ (∀ bytes : List Byte,
          (setup_time_source env.stop env.gps_locked env.ref_locked fuel).done = true →
          ("lo_locked" ∈ env.tx_sensor_names → env.lo_locked = true) →
          env.file.content = some bytes → bytes.length < 2 ^ 63 →
          (main env fuel).outcome = Outcome.exit 1)
      ∧ ((main env fuel).outcome = Outcome.exit 1 ↔ ∃ st, main_setup env fuel = Except.ok st)
      ∧ (exit_status (main env fuel).outcome = some 1
          ↔ ∃ st, main_setup env fuel = Except.ok st))
    ∧ (∀ r, main_setup env fuel = Except.error r →
        main env fuel = r
        ∧ ((main env fuel).outcome = Outcome.threw
            ∨ (main env fuel).outcome = Outcome.running)
        ∧ (main env fuel).outcome ≠ Outcome.exit 1
        ∧ exit_status (main env fuel).outcome ≠ some 1)
    ∧ (∀ st, main_setup env fuel = Except.ok st →
        (env.test_method = "tx_metadata" → main env fuel = finish st
          (xmit_tx_metadata st.td env.time_last_pps (later env.stop st.reads) fuel))
        ∧ (env.test_method = "pps_edge" → main env fuel = finish st
          (xmit_pps_edge st.td (later env.stop st.reads) fuel))
        ∧ (env.test_method = "burst_timing" → main env fuel = finish st
          (xmit_burst_timing st.td (later env.stop st.reads) fuel))
        ∧ (env.test_method = "fast_timing" → main env fuel = finish st
          (xmit_fast_timing st.td (later env.stop st.reads)).toRun)) := by
  have herr : ∀ r, main_setup env fuel = Except.error r →
      main env fuel = r
      ∧ ((main env fuel).outcome = Outcome.threw
          ∨ (main env fuel).outcome = Outcome.running)
      ∧ (main env fuel).outcome ≠ Outcome.exit 1
      ∧ exit_status (main env fuel).outcome ≠ some 1 := by
    intro r hr
    have hmain : main env fuel = r := by simp [main, hhelp, hr]
    have hout := (main_setup_error_quiet env fuel r hr).2.1
    rw [hmain]
    refine ⟨rfl, hout, ?_, ?_⟩
    · rcases hout with h | h <;> rw [h] <;> simp
    · rcases hout with h | h <;> rw [h] <;> simp [exit_status]
  refine ⟨?_, herr, ?_⟩
  · intro hname
    simp only [List.mem_cons, List.mem_singleton, List.not_mem_nil, or_false, not_or] at hname
    obtain ⟨h1, h2, h3, h4⟩ := hname
    have hdisp : ∀ td last_pps stop,
        dispatch env.test_method td last_pps stop fuel = none := by
      intro td last_pps stop
      simp [dispatch, h1, h2, h3, h4]
    have hok : ∀ st, main_setup env fuel = Except.ok st →
        main env fuel = { trace := st.trace, outcome := Outcome.exit 1 } := by
      intro st hst
      simp [main, hhelp, hst, hdisp]
    refine ⟨?_, hok, ?_, ?_, ?_⟩
    · intro c hc
      unfold main at hc
      simp only [hhelp] at hc
      cases hsetup : main_setup env fuel with
      | error r =>
        simp only [hsetup] at hc
        exact ((main_setup_error_quiet env fuel r hsetup).1 c (by simpa using hc)).1
      | ok st =>
        simp only [hsetup, hdisp] at hc
        exact (main_setup_ok_quiet env fuel st hsetup).1 c (by simpa using hc)
    · intro bytes hdone hlo hfile hsize
      obtain ⟨st, hst, _⟩ := main_setup_reaches env fuel bytes hdone hlo hfile hsize
      rw [hok st hst]
    · constructor
      · intro hone
        cases hsetup : main_setup env fuel with
        | error r => exact absurd hone (herr r hsetup).2.2.1
        | ok st => exact ⟨st, rfl⟩
      · rintro ⟨st, hst⟩
        rw [hok st hst]
    · constructor
      · intro hone
        cases hsetup : main_setup env fuel with
        | error r => exact absurd hone (herr r hsetup).2.2.2
        | ok st => exact ⟨st, rfl⟩
      · rintro ⟨st, hst⟩
        rw [hok st hst]
        rfl
  · intro st hst
    refine ⟨?_, ?_, ?_, ?_⟩ <;> intro hname <;> simp [main, hhelp, hst, dispatch, hname]

/-- C3, witness: an unknown test method in an environment that reaches the
dispatch. -/
theorem dispatch_by_name_witness :
    ({ env_demo with test_method := "bogus" } : Env).help = false
    ∧ (main { env_demo with test_method := "bogus" } 5).outcome = Outcome.exit 1 :=
  ⟨rfl, ((dispatch_by_name { env_demo with test_method := "bogus" } 5 rfl).1
    (by decide)).2.2.1 [1, 2, 3, 4] (by decide) (by decide) rfl (by decide)⟩

/-! ## C4 -/

/-- C4: when a query of the sensor "gps_locked" raises in `setup_time_source`,
the trace holds `set_time_source("external")` once and
`set_clock_source("external")` once, right after the query that raised, holds
no `set_sync_source("gpsdo", "gpsdo")`, and holds no query of "gps_locked"
after the one that raised; this for every stop schedule, every answer of the
sensors and every length of the run. -/
theorem gps_not_found_selects_external (stop : Nat → Bool) (gps : Nat → Option Bool)
    (ref : Nat → Bool) (fuel : Nat)
    (hraise : Cmd.get_mboard_sensor "gps_locked" none
      ∈ (setup_time_source stop gps ref fuel).trace) :
    (setup_time_source stop gps ref fuel).trace.count (Cmd.set_time_source "external") = 1
    ∧ (setup_time_source stop gps ref fuel).trace.count (Cmd.set_clock_source "external") = 1
    ∧ Cmd.set_sync_source "gpsdo" "gpsdo" ∉ (setup_time_source stop gps ref fuel).trace
    ∧ ∃ pre post, (setup_time_source stop gps ref fuel).trace
          = pre ++ Cmd.get_mboard_sensor "gps_locked" none
              :: Cmd.set_time_source "external" :: Cmd.set_clock_source "external" :: post
        ∧ (∀ c ∈ pre, c = Cmd.get_mboard_sensor "gps_locked" (some false))
        ∧ (∀ a, Cmd.get_mboard_sensor "gps_locked" a ∉ post) := by
  obtain ⟨n, last, mid, rest, htrace, hrest, hcase⟩ :=
    setup_time_source_shape stop gps ref fuel
  have hnot_rest : ∀ a, Cmd.get_mboard_sensor "gps_locked" a ∉ rest := by
    intro a ha
    rcases hrest _ ha with ⟨b, hb⟩ | hb
    · simp at hb
    · simp at hb
  rcases hcase with ⟨_, hlast, hmid⟩ | ⟨_, hlast, hmid⟩ | ⟨_, hlast, hmid, hr⟩
  · subst hlast hmid
    have h1 : rest.count (Cmd.set_time_source "external") = 0 := by
      apply List.count_eq_zero.2
      intro h
      rcases hrest _ h with ⟨b, hb⟩ | hb
      · simp at hb
      · simp at hb
    have h2 : rest.count (Cmd.set_clock_source "external") = 0 := by
      apply List.count_eq_zero.2
      intro h
      rcases hrest _ h with ⟨b, hb⟩ | hb
      · simp at hb
      · simp at hb
    have h3 : Cmd.set_sync_source "gpsdo" "gpsdo" ∉ rest := by
      intro h
      rcases hrest _ h with ⟨b, hb⟩ | hb
      · simp at hb
      · simp at hb
    refine ⟨?_, ?_, ?_, ?_⟩
    · rw [htrace]
      simp [List.count_append, List.count_replicate, List.count_cons, h1]
    · rw [htrace]
      simp [List.count_append, List.count_replicate, List.count_cons, h2]
    · rw [htrace]
      simp [List.mem_replicate, h3]
    · refine ⟨List.replicate n (Cmd.get_mboard_sensor "gps_locked" (some false)), rest,
        ?_, ?_, hnot_rest⟩
      · rw [htrace]
        simp
      · intro c hc
        exact (List.mem_replicate.1 hc).2
  · exfalso
    rw [htrace] at hraise
    rcases hlast with rfl | rfl <;> subst hmid <;>
      simp [List.mem_replicate] at hraise <;> exact hnot_rest _ hraise
  · exfalso
    subst hlast hmid hr
    rw [htrace] at hraise
    simp [List.mem_replicate] at hraise

/-- C4, witness: the sensor raises at the second query. -/
theorem gps_not_found_selects_external_witness :
    (setup_time_source (stop_from 9) (fun i => if i = 0 then some false else none)
        (fun _ => true) 5).trace.count (Cmd.set_time_source "external") = 1 :=
  (gps_not_found_selects_external (stop_from 9) (fun i => if i = 0 then some false else none)
    (fun _ => true) 5 (by decide)).1

/-! ## C5 -/

/-- C5: for a file of `L` bytes that is read in full (`L < 2 ^ 63`, as a file
length is), the load yields `buff_size = L / 2` and a buffer of `L / 2` samples
whose bytes are the first `2 * (L / 2)` bytes of the file, in order; and
loading the `2 * N` bytes written from `N` pairs of signed 8-bit values gives
back those `N` pairs. -/
theorem load_waveform_fidelity (readable : Nat) :
    (∀ bytes : List Byte, bytes.length < 2 ^ 63 → 2 * (bytes.length / 2) ≤ readable →
      ∃ buff, load_waveform { content := some bytes, readable := readable }
          = some (bytes.length / 2, buff)
        ∧ buff.length = bytes.length / 2
        ∧ bytes_of_samples buff = bytes.take (2 * (bytes.length / 2)))
    ∧ (∀ samples : List samp_type,
        (∀ s ∈ samples, -128 ≤ s.re ∧ s.re ≤ 127 ∧ -128 ≤ s.im ∧ s.im ≤ 127) →
        2 * samples.length < 2 ^ 63 → 2 * samples.length ≤ readable →
        (bytes_of_samples samples).length = 2 * samples.length
        ∧ load_waveform { content := some (bytes_of_samples samples), readable := readable }
            = some (samples.length, samples)) := by
  refine ⟨?_, ?_⟩
  · intro bytes hsize hread
    exact ⟨samples_of_bytes bytes, load_waveform_full bytes readable hsize hread,
      samples_of_bytes_length bytes, bytes_of_samples_of_bytes bytes⟩
  · intro samples hrange hsize hread
    have hlen := bytes_of_samples_length samples
    refine ⟨hlen, ?_⟩
    rw [load_waveform_full _ readable (by omega) (by omega), hlen,
      samples_of_bytes_of_samples samples hrange]
    congr 2
    omega

/-- C5, witness: five bytes give two samples; two pairs written and loaded
come back. -/
theorem load_waveform_fidelity_witness :
    (∃ buff, load_waveform { content := some [1, 255, 128, 127, 9], readable := 8 }
          = some (2, buff)
        ∧ buff.length = 2
        ∧ bytes_of_samples buff = [1, 255, 128, 127])
    ∧ load_waveform { content := some (bytes_of_samples
          [{ re := 1, im := -1 }, { re := -128, im := 127 }]), readable := 8 }
        = some (2, [{ re := 1, im := -1 }, { re := -128, im := 127 }]) :=
  ⟨(load_waveform_fidelity 8).1 [1, 255, 128, 127, 9] (by decide) (by decide),
   ((load_waveform_fidelity 8).2 [{ re := 1, im := -1 }, { re := -128, im := 127 }]
      (by decide) (by decide) (by decide)).2⟩

/-! ## C6 -/

/-- C6, counterexample: the file has four bytes and the read delivers one.  The
run goes on to `xmit_burst_timing`, sends the buffer holding the one byte
and zeros, and returns exit status 0. -/
theorem short_read_still_sends :
    (main { env_demo with file := { content := some [1, 2, 3, 4], readable := 1 } } 5).outcome
        = Outcome.exit 0
    ∧ Cmd.send [{ re := 1, im := 0 }, { re := 0, im := 0 }] 2 burst_md 4
        ∈ (main { env_demo with
                  file := { content := some [1, 2, 3, 4], readable := 1 } } 5).trace := by
  decide

/-- C6, amended: with `--help` absent, when the waveform file cannot be opened
the run fails: it makes no `send` and does not reach `get_tx_stream`, and once
the clock synchronisation has returned (as it does when the stop flag is seen
set from some read on) the run terminates with the nonzero exit status 255,
through an exception (of the LO-lock assertion or of the allocation of the
buffer) that leaves the body of the main function.  A read that delivers
fewer bytes than asked for is not noticed: the run is the run on a file that
holds the delivered bytes followed by zero bytes. -/
theorem unchecked_waveform_load (env : Env) (fuel : Nat) (hhelp : env.help = false) :
    (env.file.content = none →
      (∀ c ∈ (main env fuel).trace, c.is_send = false ∧ c ≠ Cmd.get_tx_stream)
      ∧ ((setup_time_source env.stop env.gps_locked env.ref_locked fuel).done = true →
          (main env fuel).outcome = Outcome.threw)
      ∧ ((setup_time_source env.stop env.gps_locked env.ref_locked fuel).done = false →
          (main env fuel).outcome = Outcome.running)
      ∧ ((setup_time_source env.stop env.gps_locked env.ref_locked fuel).done = true →
          exit_status (main env fuel).outcome = some 255
          ∧ exit_status (main env fuel).outcome ≠ some 0)
      ∧ (∀ K, (∀ n, K ≤ n → env.stop n = true) → K < fuel →
          exit_status (main env fuel).outcome = some 255
          ∧ exit_status (main env fuel).outcome ≠ some 0)
      ∧ (∀ code, exit_status (main env fuel).outcome = some code → code = 255))
    ∧ (∀ bytes, env.file.content = some bytes → bytes.length < 2 ^ 63 →
        main env fuel
          = main { env with
                   file :=
                     { content := some ((bytes.take (2 * (bytes.length / 2))).take
                           env.file.readable
                         ++ List.replicate (2 * (bytes.length / 2)
                             - min env.file.readable (2 * (bytes.length / 2))) (0 : Byte)),
                       readable := 2 * (bytes.length / 2) } } fuel) := by
  refine ⟨?_, ?_⟩
  · intro hfile
    have hload : load_waveform env.file = none := by
      have h := load_waveform_closed env.file.readable
      have hfile2 : env.file = { content := none, readable := env.file.readable } := by
        cases hf : env.file with
        | mk content readable =>
          rw [hf] at hfile
          simp only at hfile
          subst hfile
          rfl
      rw [hfile2]
      exact h
    cases hsetup : main_setup env fuel with
    | ok st =>
      have := (main_setup_ok_quiet env fuel st hsetup).2.2.2.1
      rw [hload] at this
      simp at this
    | error r =>
      have hmain : main env fuel = r := by simp [main, hhelp, hsetup]
      obtain ⟨hq, hout, hiff⟩ := main_setup_error_quiet env fuel r hsetup
      rw [hmain]
      have hthrew : (setup_time_source env.stop env.gps_locked env.ref_locked fuel).done
          = true → r.outcome = Outcome.threw := by
        intro hd
        rcases hout with h | h
        · exact h
        · have := hiff.1 h
          rw [hd] at this
          simp at this
      have hstatus : (setup_time_source env.stop env.gps_locked env.ref_locked fuel).done
          = true → exit_status r.outcome = some 255 ∧ exit_status r.outcome ≠ some 0 := by
        intro hd
        rw [hthrew hd]
        exact ⟨rfl, by simp [exit_status]⟩
      refine ⟨hq, hthrew, fun hd => hiff.2 hd, hstatus, ?_, ?_⟩
      · intro K hstop hfuel
        exact hstatus (setup_time_source_returns env.stop env.gps_locked env.ref_locked
          K fuel hstop hfuel)
      · intro code hcode
        rcases hout with h | h
        · rw [h] at hcode
          simp [exit_status] at hcode
          exact hcode.symm
        · rw [h] at hcode
          simp [exit_status] at hcode
  · intro bytes hfile hsize
    symm
    apply main_file_only_through_load
    have hfile2 : env.file = { content := some bytes, readable := env.file.readable } := by
      cases hf : env.file with
      | mk content readable =>
        rw [hf] at hfile
        simp only at hfile
        subst hfile
        rfl
    have hopen := load_waveform_open bytes env.file.readable hsize
    rw [← hfile2] at hopen
    rw [hopen]
    have hlen : ((bytes.take (2 * (bytes.length / 2))).take env.file.readable
        ++ List.replicate (2 * (bytes.length / 2)
            - min env.file.readable (2 * (bytes.length / 2))) (0 : Byte)).length
        = 2 * (bytes.length / 2) := by
      simp only [List.length_append, List.length_take, List.length_replicate]
      omega
    rw [load_waveform_full _ _ (by rw [hlen]; omega) (by rw [hlen]; omega), hlen]
    congr 2
    omega

/-- C6, witness: the file cannot be opened; the run is ended by the exception
of the allocation and the exit status is 255. -/
theorem unchecked_waveform_load_witness :
    ({ env_demo with file := { content := none, readable := 0 } } : Env).help = false
    ∧ (main { env_demo with file := { content := none, readable := 0 } } 5).outcome
        = Outcome.threw
    ∧ exit_status
        (main { env_demo with file := { content := none, readable := 0 } } 5).outcome
        = some 255 :=
  ⟨rfl,
   ((unchecked_waveform_load { env_demo with file := { content := none, readable := 0 } }
      5 rfl).1 rfl).2.1 (by decide),
   (((unchecked_waveform_load { env_demo with file := { content := none, readable := 0 } }
      5 rfl).1 rfl).2.2.2.2.1 2 (fun n hn => by simp [env_demo, stop_from]; omega)
      (by decide)).1⟩

/-! ## C7 -/

/-- C7, counterexample: with the stop flag already set and the sensor
"gps_locked" answering false, `setup_time_source` issues
`set_sync_source("gpsdo", "gpsdo")` although no query of "gps_locked" answered
true. -/
theorem sync_source_after_stop :
    Cmd.set_sync_source "gpsdo" "gpsdo"
        ∈ (setup_time_source (stop_from 0) (fun _ => some false) (fun _ => true) 1).trace
    ∧ Cmd.get_mboard_sensor "gps_locked" (some true)
        ∉ (setup_time_source (stop_from 0) (fun _ => some false) (fun _ => true) 1).trace := by
  decide

/-- C7, amended: `setup_time_source` issues `set_sync_source("gpsdo", "gpsdo")`
exactly when the GPS wait is left without an exception: after some number of
queries that answered false with the stop flag then read false, a query of
"gps_locked" answers true, or it answers false and the stop flag is then read
true. -/
theorem sync_source_iff (stop : Nat → Bool) (gps : Nat → Option Bool) (ref : Nat → Bool)
    (fuel : Nat) :
    Cmd.set_sync_source "gpsdo" "gpsdo" ∈ (setup_time_source stop gps ref fuel).trace ↔
      ∃ n, n < fuel ∧ (∀ j, j < n → gps j = some false ∧ stop j = false) ∧
        (gps n = some true ∨ (gps n = some false ∧ stop n = true)) := by
  have hiff := gps_wait_left_iff stop gps fuel 0 0
  simp only [Nat.zero_add] at hiff
  rw [← hiff]
  obtain ⟨n, last, mid, rest, htrace, hrest, hcase⟩ :=
    setup_time_source_shape stop gps ref fuel
  have h3 : Cmd.set_sync_source "gpsdo" "gpsdo" ∉ rest := by
    intro h
    rcases hrest _ h with ⟨b, hb⟩ | hb
    · simp at hb
    · simp at hb
  rw [htrace]
  rcases hcase with ⟨hexit, hlast, hmid⟩ | ⟨hexit, hlast, hmid⟩ | ⟨hexit, hlast, hmid, hr⟩
  · subst hlast hmid
    simp [List.mem_replicate, h3, hexit]
  · subst hmid
    simp [hexit]
  · subst hlast hmid hr
    simp [List.mem_replicate, hexit]

/-! ## C8 -/

/-- C8: for every frame offset, stop schedule and length of the run, the trace
of `xmit_burst_timing` is `n` repetitions of the pair `set_time_now(0)`,
`send(buff, buff_size, d, 4.0)` with the one descriptor `d = burst_md`
(start and end of burst, timed at 2.0 s), where the first `n` reads of the
stop flag saw it false and, when the function returned, read `n` saw it true;
the run does not depend on the frame offset; and the trace is empty when the
stop flag is set on entry. -/
theorem burst_timing_trace (td : test_data_t) (stop : Nat → Bool) (fuel : Nat) :
    (∃ n, n ≤ fuel ∧ (∀ j, j < n → stop j = false) ∧
      (xmit_burst_timing td stop fuel).trace
        = (List.replicate n
            [Cmd.set_time_now 0, Cmd.send td.buff td.buff_size burst_md 4]).flatten ∧
      ((xmit_burst_timing td stop fuel).done = true → stop n = true) ∧
      ((xmit_burst_timing td stop fuel).done = false → n = fuel))
    ∧ (∀ f : ℚ, xmit_burst_timing { td with frame_offset := f } stop fuel
        = xmit_burst_timing td stop fuel)
    ∧ (stop 0 = true → (xmit_burst_timing td stop (fuel + 1)).trace = []
        ∧ (xmit_burst_timing td stop (fuel + 1)).done = true) := by
  refine ⟨?_, ?_, ?_⟩
  · obtain ⟨n, hn, hfalse, htrace, hdone, hrun⟩ := burst_loop_shape td stop burst_md fuel 0
    refine ⟨n, hn, fun j hj => by simpa using hfalse j hj, htrace, ?_, hrun⟩
    intro hd
    simpa using hdone hd
  · intro f
    exact burst_loop_buff _ _ stop _ fuel 0 rfl rfl
  · intro h0
    simp [xmit_burst_timing, burst_loop, h0]

/-- C8, witness: with the stop flag set on entry nothing is sent. -/
theorem burst_timing_trace_witness :
    stop_from 0 0 = true ∧ (xmit_burst_timing td_demo (stop_from 0) 1).trace = [] :=
  ⟨rfl, ((burst_timing_trace td_demo (stop_from 0) 0).2.2 rfl).1⟩

/-! ## C9 -/

/-- C9, counterexample: with the last PPS time 1/2 s and frame offset 0 the
first descriptor sent by `xmit_tx_metadata` has `time_spec = 2`, which is not
`1/2 + 2 + 0`. -/
theorem tx_metadata_drops_fraction :
    ∃ d, (sent (xmit_tx_metadata td_demo (1 / 2) (stop_from 1) 2).trace).head? = some d
      ∧ d.time_spec = 2 ∧ d.time_spec ≠ 1 / 2 + 2 + td_demo.frame_offset := by
  have hfloor : ⌊(2 : ℚ)⁻¹⌋ = 0 := by
    rw [Int.floor_eq_iff]; norm_num
  refine ⟨{ start_of_burst := true, end_of_burst := false, has_time_spec := true,
            time_spec := 2 }, ?_, rfl, ?_⟩
  · simp [xmit_tx_metadata, send_until_stop, stop_from, sent, get_full_secs, hfloor,
      tx_metadata_t.init, td_demo]
  · simp [td_demo]

/-- C9, amended: when the first read of the stop flag sees it false, the first
descriptor `xmit_tx_metadata` sends has `has_time_spec = true` and
`time_spec = s + 2 + f`, where `s` is the whole seconds (the floor) of the
last PPS time and `f` the frame offset; every later descriptor of the
invocation has `has_time_spec = false`. -/
theorem tx_metadata_first_time_spec (td : test_data_t) (last_pps : ℚ) (stop : Nat → Bool)
    (fuel : Nat) :
    (stop 0 = false →
      ∃ d, (sent (xmit_tx_metadata td last_pps stop (fuel + 1)).trace).head? = some d
        ∧ d.has_time_spec = true
        ∧ d.time_spec = (⌊last_pps⌋ : ℚ) + 2 + td.frame_offset)
    ∧ (∀ d ∈ (sent (xmit_tx_metadata td last_pps stop fuel).trace).tail,
        d.has_time_spec = false) := by
  refine ⟨?_, ?_⟩
  · intro h0
    simp [xmit_tx_metadata, send_until_stop, h0, sent, get_full_secs]
  · intro d hd
    exact (send_until_stop_tail td stop fuel 0 _ d
      (by simpa [xmit_tx_metadata, sent] using hd)).1

/-- C9, witness: the first descriptor for last PPS time 7/2 s. -/
theorem tx_metadata_first_time_spec_witness :
    stop_from 1 0 = false ∧
    ∃ d, (sent (xmit_tx_metadata td_demo (7 / 2) (stop_from 1) 1).trace).head? = some d
      ∧ d.has_time_spec = true
      ∧ d.time_spec = (⌊(7 / 2 : ℚ)⌋ : ℚ) + 2 + td_demo.frame_offset :=
  ⟨rfl, (tx_metadata_first_time_spec td_demo (7 / 2) (stop_from 1) 0).1 rfl⟩

/-! ## C10 -/

/-- C10: for every stop schedule `xmit_fast_timing` returns, and the value it
prints as expected time is `2 + n / 200`, where `n ≤ 50` is the number of
`send` calls it made. -/
theorem fast_timing_expected_time (td : test_data_t) (stop : Nat → Bool) :
    (xmit_fast_timing td stop).done = true
    ∧ (xmit_fast_timing td stop).expected_time
        = 2 + ((sent (xmit_fast_timing td stop).trace).length : ℚ) / 200
    ∧ (sent (xmit_fast_timing td stop).trace).length ≤ 50 := by
  have key : ∀ md : tx_metadata_t,
      (fast_loop td stop 51 0 0 md).done = true
      ∧ (2 : ℚ) + 5 / 1000 * ((fast_loop td stop 51 0 0 md).i : ℚ)
          = 2 + ((sent (fast_loop td stop 51 0 0 md).trace).length : ℚ) / 200
      ∧ (sent (fast_loop td stop 51 0 0 md).trace).length ≤ 50 := by
    intro md
    have hc := fast_loop_counter td stop 51 0 0 md
    have hle := fast_loop_counter_le td stop 51 0 0 md (by omega)
    have hd := fast_loop_done td stop 51 0 0 md (by omega) (by omega)
    refine ⟨hd, ?_, by omega⟩
    rw [hc]
    push_cast
    ring
  simpa [xmit_fast_timing, sent] using key _

end TimedTx
